import Mathlib

/-!
Verification development for the es-research sampling and statistics pipeline.

The definitions below are shallow embeddings of the TypeScript source:
* `calculateConfidenceInterval`, `calculateRequiredSampleSize` from `src/utils.ts`
  (statistical estimators);
* `searchNextJSProjects` (deduplicating multi-strategy discovery merge) from
  `src/github-client.ts` and the sort/truncate sampling step of
  `src/fetch-projects.ts` `main`;
* `summarizeIssues` from `src/es-guard-analyzer.ts`;
* `analyzeFiles` (bounded-concurrency file runner) from `src/es-guard-analyzer.ts`;
* `generateAnalysisSummary` from `src/analyze-projects.ts`;
* `validateNextJSProject` from the GitHub client variant.

JavaScript numbers are modelled as real numbers (`ℝ`) where irrational
operations (`Math.sqrt`) occur, and as rationals (`ℚ`) where the source
arithmetic is exact.  JavaScript division that can produce `NaN`/`Infinity`
(zero denominator) is modelled by `jsDivNat`, which returns `none` in exactly
those cases.
-/

namespace ESResearch

/-- Result record of `calculateConfidenceInterval` (`src/utils.ts`):
`{ lower, upper, margin }`. -/
structure ConfidenceInterval where
  lower : ℝ
  upper : ℝ
  margin : ℝ

/-- Embedding of `calculateConfidenceInterval(successes, total, confidenceLevel)`
from `src/utils.ts`.  The `confidenceLevel` parameter is accepted (source
default `0.95`) but unused: the source fixes `z = 1.96`.  `total === 0`
returns `{lower: 0, upper: 0, margin: 0}`. -/
noncomputable def calculateConfidenceInterval (successes total : ℝ)
    (confidenceLevel : ℝ := 0.95) : ConfidenceInterval :=
  if total = 0 then { lower := 0, upper := 0, margin := 0 }
  else
    let p := successes / total
    let z : ℝ := 1.96
    let margin := z * Real.sqrt (p * (1 - p) / total)
    { lower := max 0 (p - margin), upper := min 1 (p + margin), margin := margin }

/-- Embedding of `calculateRequiredSampleSize(confidenceLevel, marginOfError)`
from `src/utils.ts`: `Math.ceil(z*z*p*(1-p) / (marginOfError*marginOfError))`
with `z = 1.96` and `p = 0.5` fixed.  The arithmetic is exact on rationals,
so the embedding uses `ℚ`; `confidenceLevel` is accepted but unused, exactly
as in the source. -/
def calculateRequiredSampleSize (confidenceLevel : ℚ := 0.95)
    (marginOfError : ℚ := 0.05) : ℤ :=
  let z : ℚ := 1.96
  let p : ℚ := 0.5
  ⌈z * z * p * (1 - p) / (marginOfError * marginOfError)⌉

/-- Repository record, after `GitHubRepository` in `src/github-client.ts`. -/
structure GitHubRepository where
  id : ℕ
  name : String
  full_name : String
  description : Option String
  stargazers_count : ℕ
  forks_count : ℕ
  language : Option String
  created_at : String
  updated_at : String
  clone_url : String
  default_branch : String
  deriving DecidableEq, Repr

/-- One step of the deduplicating merge in `searchNextJSProjects`
(`src/github-client.ts`): `if (!projects.has(project.full_name))
projects.set(project.full_name, project)`.  The JS `Map` preserves insertion
order, so it is modelled as a list with a membership check on `full_name`
(first occurrence wins). -/
def dedupeInsert (projects : List GitHubRepository)
    (project : GitHubRepository) : List GitHubRepository :=
  if projects.any (fun q => q.full_name = project.full_name) then projects
  else projects ++ [project]

/-- Embedding of `searchNextJSProjects` (`src/github-client.ts`) over the
lists of records the discovery strategies return: the results of each
strategy are
merged into the deduplicating map unless the map already holds `limit`
records (the loop guard `if (projects.size >= limit) break`), and the merged
values are truncated with `slice(0, limit)`.  The network calls inside each
strategy are the out-of-scope collaborator; their result lists are the
input here. -/
def searchNextJSProjects (strategyResults : List (List GitHubRepository))
    (limit : ℕ) : List GitHubRepository :=
  (strategyResults.foldl
    (fun acc results =>
      if limit ≤ acc.length then acc else results.foldl dedupeInsert acc)
    []).take limit

/-- Stable insertion used to model `projects.sort((a, b) =>
b.stargazers_count - a.stargazers_count)` in `src/fetch-projects.ts`:
descending by stars, ties keeping original order (JS `sort` is stable). -/
def insertByStarsDesc (r : GitHubRepository) :
    List GitHubRepository → List GitHubRepository
  | [] => [r]
  | q :: rest =>
      if q.stargazers_count ≤ r.stargazers_count then r :: q :: rest
      else q :: insertByStarsDesc r rest

/-- Stable sort by `stargazers_count` descending (`src/fetch-projects.ts`,
`main`). -/
def sortByStarsDesc (projects : List GitHubRepository) :
    List GitHubRepository :=
  projects.foldr insertByStarsDesc []

/-- The selection pipeline of `main` in `src/fetch-projects.ts`: discovery
merge (`searchNextJSProjects` with `config.research.sampleSize` as limit),
then sort by stars descending, then `slice(0, config.research.sampleSize)`. -/
def sampleProjects (strategyResults : List (List GitHubRepository))
    (sampleSize : ℕ) : List GitHubRepository :=
  (sortByStarsDesc (searchNextJSProjects strategyResults sampleSize)).take
    sampleSize

/-- Search criteria value object, after `SearchCriteria` in `src/config.ts`. -/
structure SearchCriteria where
  minStars : ℕ
  minForks : ℕ
  createdAfter : String
  deriving DecidableEq, Repr

/-- The configured criteria from `src/config.ts`
(`config.research.searchCriteria`). -/
def configSearchCriteria : SearchCriteria :=
  { minStars := 100, minForks := 10, createdAfter := "2020-01-01" }

/-- Modelled from the spec: the population-criteria filter of §4.4 step 3
("popularity signals ≥ configured minimums, creation timestamp ≥ configured
lower bound").  No corresponding filter exists in the selection code of
`src/fetch-projects.ts`/`src/github-client.ts`; this predicate states what
the spec requires of a selected record. -/
def meetsCriteria (r : GitHubRepository) (c : SearchCriteria) : Prop :=
  c.minStars ≤ r.stargazers_count ∧ c.minForks ≤ r.forks_count ∧
    c.createdAfter ≤ r.created_at

instance (r : GitHubRepository) (c : SearchCriteria) :
    Decidable (meetsCriteria r c) := by
  unfold meetsCriteria; infer_instance

/-- Issue severity union type from `src/es-guard-analyzer.ts`:
`"error" | "warning" | "info"`. -/
inductive Severity where
  | error
  | warning
  | info
  deriving DecidableEq, Repr

/-- Violation record, after `ESGuardIssue` in `src/es-guard-analyzer.ts`:
every field is optional. -/
structure ESGuardIssue where
  category : Option String
  severity : Option Severity
  type : Option String
  message : Option String
  line : Option ℕ
  column : Option ℕ
  deriving DecidableEq, Repr

/-- The `severity: { error, warning, info }` counters of `IssueSummary`
(`src/es-guard-analyzer.ts`). -/
structure SeverityCounts where
  error : ℕ
  warning : ℕ
  info : ℕ
  deriving DecidableEq, Repr

/-- Summary record, after `IssueSummary` in `src/es-guard-analyzer.ts`; the
`categories: Record<string, number>` dictionary is modelled as a count
function defaulting to 0 (`summary.categories[category] || 0`). -/
structure IssueSummary where
  total : ℕ
  categories : String → ℕ
  severity : SeverityCounts

/-- JavaScript `x || d` for an optional string `x`: both `undefined` and the
empty string are falsy. -/
def jsOrString (s : Option String) (d : String) : String :=
  match s with
  | none => d
  | some v => if v = "" then d else v

/-- Increment of one severity counter:
`summary.severity[severity] = (summary.severity[severity] || 0) + 1`. -/
def bumpSeverity (c : SeverityCounts) : Severity → SeverityCounts
  | .error => { c with error := c.error + 1 }
  | .warning => { c with warning := c.warning + 1 }
  | .info => { c with info := c.info + 1 }

/-- One iteration of the `for (const issue of issues)` loop of
`summarizeIssues` (`src/es-guard-analyzer.ts`): category defaults to
`"unknown"` (`issue.category || "unknown"`), severity defaults to `"info"`
(`issue.severity || "info"`). -/
def summarizeStep (summary : IssueSummary) (issue : ESGuardIssue) :
    IssueSummary :=
  let category := jsOrString issue.category "unknown"
  let severity := issue.severity.getD .info
  { summary with
    categories := fun c =>
      if c = category then summary.categories c + 1 else summary.categories c,
    severity := bumpSeverity summary.severity severity }

/-- Embedding of `ESGuardAnalyzer.summarizeIssues`
(`src/es-guard-analyzer.ts`): the summary starts at
`{ total: issues.length, categories: {}, severity: {0,0,0} }` and is folded
over the issue list. -/
def summarizeIssues (issues : List ESGuardIssue) : IssueSummary :=
  issues.foldl summarizeStep
    { total := issues.length, categories := fun _ => 0,
      severity := { error := 0, warning := 0, info := 0 } }

/-- Task record, after `FileToAnalyze` in `src/es-guard-analyzer.ts`. -/
structure FileToAnalyze where
  path : String
  content : String
  deriving DecidableEq, Repr

/-- Per-file result record, after `FileAnalysisResult` in
`src/es-guard-analyzer.ts`.  The wall-clock `timestamp` is ambient
environment state, modelled as a constant. -/
structure FileAnalysisResult where
  filePath : String
  hasIssues : Bool
  issues : List ESGuardIssue
  summary : IssueSummary
  timestamp : String
  error : Option String

/-- The failure-typed result pushed by the `catch` branch of `processFile`
inside `analyzeFiles` (`src/es-guard-analyzer.ts`): a thrown exception is
converted into a result with `hasIssues: false`, the error message, and an
all-zero summary. -/
def errorResult (file : FileToAnalyze) (msg : String) : FileAnalysisResult :=
  { filePath := file.path, hasIssues := false, error := some msg,
    issues := [],
    summary := { total := 0, categories := fun _ => 0,
                 severity := { error := 0, warning := 0, info := 0 } },
    timestamp := "" }

/-- The `processFile` closure of `analyzeFiles`: awaits the per-file
analysis (whose outcome — a result or a thrown exception — is the `analyze`
oracle here, covering `this.analyzeFile`) and pushes exactly one result,
converting a throw into `errorResult`. -/
def processFile (analyze : FileToAnalyze → Except String FileAnalysisResult)
    (file : FileToAnalyze) : FileAnalysisResult :=
  match analyze file with
  | .ok r => r
  | .error msg => errorResult file msg

/-- The scheduling loop of `analyzeFiles` (`src/es-guard-analyzer.ts`):
while the queue is non-empty, up to `concurrency` tasks are started
(`while (running.size < concurrency && queue.length > 0)`), each completed
task contributes exactly one result, and the loop repeats on the remaining
queue.  One wave of at most `concurrency` tasks is modelled per iteration;
completion order within a wave is fixed to queue order (the source leaves
it unconstrained). -/
def analyzeFilesGo (analyze : FileToAnalyze → Except String FileAnalysisResult)
    (concurrency : ℕ) : List FileToAnalyze → List FileAnalysisResult
  | [] => []
  | f :: rest =>
      (processFile analyze f ::
        (rest.take (concurrency - 1)).map (processFile analyze)) ++
        analyzeFilesGo analyze concurrency (rest.drop (concurrency - 1))
  termination_by l => l.length
  decreasing_by simp only [List.length_drop, List.length_cons]; omega

/-- Embedding of `ESGuardAnalyzer.analyzeFiles`
(`src/es-guard-analyzer.ts`): run all queued files with the bounded
scheduler and return the collected results. -/
def analyzeFiles (analyze : FileToAnalyze → Except String FileAnalysisResult)
    (files : List FileToAnalyze) (concurrency : ℕ) :
    List FileAnalysisResult :=
  analyzeFilesGo analyze concurrency files

/-- Violation record of the external `es-guard` checker (a third-party
black box): a file plus its reported messages.  Only identity and count
matter to the aggregation code under verification. -/
structure Violation where
  file : String
  messages : List String
  deriving DecidableEq, Repr

/-- The `results` field of a project analysis
(`src/es-guard-analyzer.ts` variant consumed by `src/analyze-projects.ts`):
`{ success, errors, warnings, scanDirectory, target, browserTargets }`. -/
structure ESGuardRunResult where
  success : Bool
  errors : List Violation
  warnings : List Violation
  scanDirectory : String
  target : String
  browserTargets : String
  deriving DecidableEq, Repr

/-- Per-project `statistics` histograms
(`ProjectAnalysisResult.statistics`); the `Record<string, number>`
dictionaries are modelled as count functions. -/
structure ProjectStatistics where
  categories : String → ℕ
  severity : SeverityCounts
  issueTypes : String → ℕ

/-- Per-project analysis result record, after `ProjectAnalysisResult` in
`src/es-guard-analyzer.ts` as consumed by `generateAnalysisSummary`. -/
structure ProjectAnalysisResult where
  project : GitHubRepository
  duration : ℕ
  timestamp : String
  results : ESGuardRunResult
  statistics : ProjectStatistics

/-- Hard-failure record, after `AnalysisError` in
`src/analyze-projects.ts`. -/
structure AnalysisError where
  project : String
  error : String
  timestamp : String
  isCritical : Bool
  deriving DecidableEq, Repr

/-- The `overview` block of `AnalysisSummary` (`src/analyze-projects.ts`). -/
structure AnalysisOverview where
  totalProjects : ℕ
  analyzedProjects : ℕ
  failedProjects : ℕ
  projectsWithIssues : ℕ
  projectsWithoutIssues : ℕ
  totalFiles : ℕ
  totalIssues : ℕ
  deriving DecidableEq, Repr

/-- The `statistics` block of `AnalysisSummary`.  JavaScript number division
with a zero denominator produces `NaN` (`0/0`) or `Infinity` — no finite
number — so those entries are modelled as `Option ℝ` via `jsDivNat`. -/
structure AnalysisStatistics where
  issuePrevalencePercentage : Option ℝ
  issuePrevalenceConfidenceInterval : ConfidenceInterval
  averageIssuesPerProject : Option ℝ
  averageIssuesPerFile : Option ℝ

/-- Population summary record, after `AnalysisSummary` in
`src/analyze-projects.ts`.  The `issueCategories` / `topIssues`
dictionaries are modelled as summed count functions; their
sorted/truncated JS object presentation is report formatting. -/
structure AnalysisSummary where
  overview : AnalysisOverview
  statistics : AnalysisStatistics
  issueCategories : String → ℕ
  issueSeverity : SeverityCounts
  topIssues : String → ℕ

/-- JavaScript division `a / b` of non-negative counts: `none` models the
non-finite outcomes `NaN` (`0/0`) and `Infinity` (`a/0`, `a > 0`). -/
noncomputable def jsDivNat (a b : ℕ) : Option ℝ :=
  if b = 0 then none else some ((a : ℝ) / b)

/-- Embedding of `aggregateIssueCategories`
(`src/analyze-projects.ts`): pointwise sum
of the per-project category histograms (the sort into a JS object is
presentation only). -/
def aggregateIssueCategories (results : List ProjectAnalysisResult) :
    String → ℕ :=
  results.foldl (fun acc r c => acc c + r.statistics.categories c)
    (fun _ => 0)

/-- Embedding of `aggregateIssueSeverity`
(`src/analyze-projects.ts`): sums the
per-project severity counters starting from `{error: 0, warning: 0,
info: 0}`. -/
def aggregateIssueSeverity (results : List ProjectAnalysisResult) :
    SeverityCounts :=
  results.foldl
    (fun acc r =>
      { error := acc.error + r.statistics.severity.error,
        warning := acc.warning + r.statistics.severity.warning,
        info := acc.info + r.statistics.severity.info })
    { error := 0, warning := 0, info := 0 }

/-- Embedding of `getTopIssues` (`src/analyze-projects.ts`): pointwise
sum of the
per-project issue-type histograms (the descending sort and top-10
truncation are report formatting over the summed counts). -/
def getTopIssues (results : List ProjectAnalysisResult) : String → ℕ :=
  results.foldl (fun acc r t => acc t + r.statistics.issueTypes t)
    (fun _ => 0)

/-- Embedding of `generateAnalysisSummary` (`src/analyze-projects.ts`):
`totalProjects = results.length + errors.length`; a project has issues when
`r.results.errors.length > 0 || r.results.warnings.length > 0`; both
`totalFiles` and `totalIssues` sum `errors.length + warnings.length`; the
averages divide without any zero guard. -/
noncomputable def generateAnalysisSummary
    (results : List ProjectAnalysisResult) (errors : List AnalysisError) :
    AnalysisSummary :=
  let totalProjects := results.length + errors.length
  let projectsWithIssues := (results.filter (fun r =>
    decide (0 < r.results.errors.length) ||
      decide (0 < r.results.warnings.length))).length
  let totalFiles := results.foldl
    (fun sum r => sum + r.results.errors.length + r.results.warnings.length) 0
  let totalIssues := results.foldl
    (fun sum r => sum + r.results.errors.length + r.results.warnings.length) 0
  let confidenceInterval :=
    calculateConfidenceInterval projectsWithIssues totalProjects
  { overview :=
      { totalProjects := totalProjects,
        analyzedProjects := results.length,
        failedProjects := errors.length,
        projectsWithIssues := projectsWithIssues,
        projectsWithoutIssues := results.length - projectsWithIssues,
        totalFiles := totalFiles,
        totalIssues := totalIssues },
    statistics :=
      { issuePrevalencePercentage :=
          (jsDivNat projectsWithIssues totalProjects).map (fun p => p * 100),
        issuePrevalenceConfidenceInterval :=
          { lower := confidenceInterval.lower * 100,
            upper := confidenceInterval.upper * 100,
            margin := confidenceInterval.margin * 100 },
        averageIssuesPerProject := jsDivNat totalIssues results.length,
        averageIssuesPerFile := jsDivNat totalIssues totalFiles },
    issueCategories := aggregateIssueCategories results,
    issueSeverity := aggregateIssueSeverity results,
    topIssues := getTopIssues results }

/-- Parsed `package.json` shape used by `validateNextJSProject`
(the GitHub client): dependency maps as key/value lists. -/
structure PackageManifest where
  dependencies : List (String × String)
  devDependencies : List (String × String)
  deriving DecidableEq, Repr

/-- Outcome of fetching and parsing the manifest for
`validateNextJSProject`: the content fetch may succeed (with the result of
`JSON.parse`, which itself may throw), return `null` on a 404
(`getFileContent`), or throw any other error. -/
inductive ManifestFetch where
  | fetched (parsed : Except String PackageManifest)
  | notFound
  | failed (msg : String)
  deriving Repr

/-- Result record of `validateNextJSProject`:
`{ isValid: boolean; nextVersion?: string; reason?: string }`.  The result
type has no third state — validity is a boolean. -/
structure ValidationResult where
  isValid : Bool
  nextVersion : Option String
  reason : Option String
  deriving DecidableEq, Repr

/-- Lookup in `allDeps = { ...dependencies, ...devDependencies }`: the
later spread (devDependencies) wins. -/
def allDepsLookup (pkg : PackageManifest) (key : String) : Option String :=
  match pkg.devDependencies.lookup key with
  | some v => some v
  | none => pkg.dependencies.lookup key

/-- Embedding of `GitHubClient.validateNextJSProject`: a 404 on the
manifest yields `No package.json found`; *any other thrown error* — network
failure, rate limit, or a `JSON.parse` failure — is caught by the single
`catch` and yields `isValid: false` with reason
`Error validating project: <message>`; otherwise the merged dependency maps
are checked for the exact key `"next"` (`nextJSKeys.length === 0` rejects,
and `...(nextVersion && { nextVersion })` omits a falsy version). -/
def validateNextJSProject (fetch : ManifestFetch) : ValidationResult :=
  match fetch with
  | .failed msg =>
      { isValid := false, nextVersion := none,
        reason := some ("Error validating project: " ++ msg) }
  | .notFound =>
      { isValid := false, nextVersion := none,
        reason := some "No package.json found" }
  | .fetched (.error msg) =>
      { isValid := false, nextVersion := none,
        reason := some ("Error validating project: " ++ msg) }
  | .fetched (.ok pkg) =>
      match allDepsLookup pkg "next" with
      | none =>
          { isValid := false, nextVersion := none,
            reason := some "No NextJS dependencies found" }
      | some v =>
          { isValid := true,
            nextVersion := if v = "" then none else some v,
            reason := some ("Found NextJS dependency: next@" ++ v) }

/-- Scenario A record `a/x` (spec §8, property 7): stars 500, forks 50,
created 2021-01-01. -/
def scenarioAX : GitHubRepository :=
  { id := 1, name := "x", full_name := "a/x", description := none,
    stargazers_count := 500, forks_count := 50,
    language := some "JavaScript", created_at := "2021-01-01",
    updated_at := "2021-01-01", clone_url := "https://e/a/x.git",
    default_branch := "main" }

/-- Scenario A record `b/y` (spec §8, property 7): stars 50, forks 2,
created 2019-01-01 — fails every configured criterion. -/
def scenarioBY : GitHubRepository :=
  { id := 2, name := "y", full_name := "b/y", description := none,
    stargazers_count := 50, forks_count := 2,
    language := some "JavaScript", created_at := "2019-01-01",
    updated_at := "2019-01-01", clone_url := "https://e/b/y.git",
    default_branch := "main" }

/-- Scenario A discovery results: three strategies yielding `a/x`, a
duplicate of `a/x`, and `b/y`. -/
def scenarioStrategies : List (List GitHubRepository) :=
  [[scenarioAX], [scenarioAX], [scenarioBY]]

/-- Each record duplicated twice in sequence (the transformation of a
discovery-results set in spec §8, property 3). -/
def duplicateEach : List GitHubRepository → List GitHubRepository
  | [] => []
  | r :: rest => r :: r :: duplicateEach rest

/-- A crafted violation with both category and severity missing. -/
def bareIssue : ESGuardIssue :=
  { category := none, severity := none, type := none,
    message := some "Issue 1", line := none, column := none }

/-- A violation with explicit category and severity. -/
def taggedIssue : ESGuardIssue :=
  { category := some "compatibility", severity := some .warning,
    type := some "deprecated", message := some "Warning 1",
    line := some 3, column := some 1 }

/-- Demonstration task list for the C9 witness (mirrors the test inputs
that the repository uses for `analyzeFiles`). -/
def demoFiles : List FileToAnalyze :=
  [{ path := "file1.js", content := "console.log(1);" },
   { path := "file2.js", content := "invalid javascript syntax \x7b" },
   { path := "file3.js", content := "console.log(3);" }]

/-- Demonstration analysis oracle for the C9 witness: throws on
`file2.js`, succeeds on the others. -/
def demoAnalyze : FileToAnalyze → Except String FileAnalysisResult :=
  fun f =>
    if f.path = "file2.js" then .error "Analysis timeout"
    else .ok
      { filePath := f.path, hasIssues := false, issues := [],
        summary := { total := 0, categories := fun _ => 0,
                     severity := { error := 0, warning := 0, info := 0 } },
        timestamp := "", error := none }

end ESResearch

namespace ESResearch

/-- C1 -- For every pair `(successes, total)` of natural counts with
`successes ≤ total` and any confidence level, `calculateConfidenceInterval`
returns `{lower, upper, margin}` with `lower ≤ successes/total ≤ upper` and
`lower`, `upper`, `margin` all in `[0,1]`; when `total = 0` it returns
`{0, 0, 0}` rather than an error. -/
theorem calculateConfidenceInterval_bounds (s n : ℕ) (c : ℝ) (h : s ≤ n) :
    (calculateConfidenceInterval s n c).lower ≤ (s : ℝ) / n ∧
    (s : ℝ) / n ≤ (calculateConfidenceInterval s n c).upper ∧
    0 ≤ (calculateConfidenceInterval s n c).lower ∧
    (calculateConfidenceInterval s n c).lower ≤ 1 ∧
    0 ≤ (calculateConfidenceInterval s n c).upper ∧
    (calculateConfidenceInterval s n c).upper ≤ 1 ∧
    0 ≤ (calculateConfidenceInterval s n c).margin ∧
    (calculateConfidenceInterval s n c).margin ≤ 1 ∧
    (n = 0 → calculateConfidenceInterval s n c =
      { lower := 0, upper := 0, margin := 0 }) := by
  rcases Nat.eq_zero_or_pos n with hn | hn
  · subst hn
    have hs : s = 0 := Nat.le_zero.mp h
    subst hs
    simp [calculateConfidenceInterval]
  · have hn0 : ((n : ℝ)) ≠ 0 := by positivity
    have hn1 : (1 : ℝ) ≤ (n : ℝ) := by exact_mod_cast hn
    have hp0 : (0 : ℝ) ≤ (s : ℝ) / n := by positivity
    have hp1 : (s : ℝ) / n ≤ 1 := by
      rw [div_le_one (by positivity)]
      exact_mod_cast h
    set p : ℝ := (s : ℝ) / n with hp
    have hmargin0 : (0 : ℝ) ≤ 1.96 * Real.sqrt (p * (1 - p) / n) := by positivity
    have hsqrt : Real.sqrt (p * (1 - p) / n) ≤ 1 / 2 := by
      have harg : p * (1 - p) / n ≤ 1 / 4 := by
        have h1 : p * (1 - p) ≤ 1 / 4 := by nlinarith [sq_nonneg (p - 1 / 2)]
        have h2 : p * (1 - p) / n ≤ p * (1 - p) := by
          apply div_le_self (by nlinarith) hn1
        linarith
      calc Real.sqrt (p * (1 - p) / n) ≤ Real.sqrt (1 / 4) :=
            Real.sqrt_le_sqrt harg
        _ = 1 / 2 := by
            rw [show (1 : ℝ) / 4 = (1 / 2) ^ 2 by norm_num]
            exact Real.sqrt_sq (by norm_num)
    have hmargin1 : 1.96 * Real.sqrt (p * (1 - p) / n) ≤ 1 := by nlinarith
    have hne : ¬ ((n : ℝ) = 0) := hn0
    simp only [calculateConfidenceInterval, if_neg hne]
    refine ⟨?_, ?_, ?_, ?_, ?_, ?_, ?_, ?_, ?_⟩
    · exact max_le hp0 (by linarith)
    · exact le_min hp1 (by linarith)
    · exact le_max_left 0 _
    · exact max_le (by norm_num) (by linarith)
    · exact le_trans hp0 (le_min hp1 (by linarith))
    · exact min_le_left 1 _
    · exact hmargin0
    · exact hmargin1
    · intro h0
      exact absurd h0 (Nat.pos_iff_ne_zero.mp hn)

/-- Witness for C1: the theorem applied at `successes = 1`, `total = 2`,
confidence level `0.95`. -/
theorem calculateConfidenceInterval_bounds_witness :
    (1 : ℕ) ≤ 2 ∧
    ((calculateConfidenceInterval 1 2 0.95).lower ≤ (1 : ℝ) / 2 ∧
     (1 : ℝ) / 2 ≤ (calculateConfidenceInterval 1 2 0.95).upper ∧
     0 ≤ (calculateConfidenceInterval 1 2 0.95).lower ∧
     (calculateConfidenceInterval 1 2 0.95).lower ≤ 1 ∧
     0 ≤ (calculateConfidenceInterval 1 2 0.95).upper ∧
     (calculateConfidenceInterval 1 2 0.95).upper ≤ 1 ∧
     0 ≤ (calculateConfidenceInterval 1 2 0.95).margin ∧
     (calculateConfidenceInterval 1 2 0.95).margin ≤ 1 ∧
     ((2 : ℕ) = 0 → calculateConfidenceInterval 1 2 0.95 =
       { lower := 0, upper := 0, margin := 0 })) := by
  refine ⟨by decide, ?_⟩
  have := calculateConfidenceInterval_bounds 1 2 0.95 (by decide)
  simpa using this

/-- C5 -- For every `confidenceLevel` in `(0,1)` and `marginOfError` in
`(0,1)`, `calculateRequiredSampleSize` returns an integer `≥ 1`; decreasing
the margin of error (confidence level fixed) or increasing the confidence
level (margin fixed) never decreases the result. -/
theorem calculateRequiredSampleSize_pos_mono (c c' E E' : ℚ)
    (hc0 : 0 < c) (hc1 : c < 1) (hc0' : 0 < c') (hc1' : c' < 1)
    (hE0 : 0 < E) (hE1 : E < 1) (hE0' : 0 < E') (hE1' : E' < 1) :
    1 ≤ calculateRequiredSampleSize c E ∧
    (E' ≤ E →
      calculateRequiredSampleSize c E ≤ calculateRequiredSampleSize c E') ∧
    (c ≤ c' →
      calculateRequiredSampleSize c E ≤ calculateRequiredSampleSize c' E) := by
  refine ⟨?_, ?_, ?_⟩
  · show 1 ≤ ⌈(1.96 : ℚ) * 1.96 * 0.5 * (1 - 0.5) / (E * E)⌉
    rw [Int.one_le_ceil_iff]
    positivity
  · intro hle
    show ⌈(1.96 : ℚ) * 1.96 * 0.5 * (1 - 0.5) / (E * E)⌉ ≤
      ⌈(1.96 : ℚ) * 1.96 * 0.5 * (1 - 0.5) / (E' * E')⌉
    apply Int.ceil_le_ceil
    gcongr
  · intro _
    exact le_of_eq rfl

/-- Witness for C5: the theorem applied at confidence levels `0.95`, `0.99`
and margins `0.05`, `0.01`. -/
theorem calculateRequiredSampleSize_pos_mono_witness :
    (0 : ℚ) < 0.95 ∧
    (1 ≤ calculateRequiredSampleSize 0.95 0.05 ∧
     ((0.01 : ℚ) ≤ 0.05 →
       calculateRequiredSampleSize 0.95 0.05 ≤
         calculateRequiredSampleSize 0.95 0.01) ∧
     ((0.95 : ℚ) ≤ 0.99 →
       calculateRequiredSampleSize 0.95 0.05 ≤
         calculateRequiredSampleSize 0.99 0.05)) :=
  ⟨by norm_num,
   calculateRequiredSampleSize_pos_mono 0.95 0.99 0.05 0.01
     (by norm_num) (by norm_num) (by norm_num) (by norm_num)
     (by norm_num) (by norm_num) (by norm_num) (by norm_num)⟩

/-- Counterexample to C3: in end-to-end scenario A the record `b/y`
(stars 50 < 100, forks 2 < 10, created 2019 < 2020) is *in* the selected
sample even though it fails every configured criterion — the selection code
applies no criteria filter. -/
theorem sampleProjects_no_filter_counterexample :
    scenarioBY ∈ sampleProjects scenarioStrategies 10 ∧
    ¬ meetsCriteria scenarioBY configSearchCriteria := by
  constructor
  · show scenarioBY ∈ sampleProjects scenarioStrategies 10
    decide
  · decide

lemma mem_of_mem_insertByStarsDesc {r x : GitHubRepository}
    {l : List GitHubRepository} (h : r ∈ insertByStarsDesc x l) :
    r = x ∨ r ∈ l := by
  induction l with
  | nil => simpa [insertByStarsDesc] using h
  | cons q rest ih =>
      rw [insertByStarsDesc] at h
      split at h
      · simpa using h
      · rcases List.mem_cons.mp h with h | h
        · exact Or.inr (by simp [h])
        · rcases ih h with h | h
          · exact Or.inl h
          · exact Or.inr (List.mem_cons_of_mem _ h)

lemma mem_of_mem_sortByStarsDesc {r : GitHubRepository}
    {l : List GitHubRepository} (h : r ∈ sortByStarsDesc l) : r ∈ l := by
  induction l with
  | nil => simpa [sortByStarsDesc] using h
  | cons x xs ih =>
      have h' : r ∈ insertByStarsDesc x (sortByStarsDesc xs) := h
      rcases mem_of_mem_insertByStarsDesc h' with h'' | h''
      · simp [h'']
      · exact List.mem_cons_of_mem _ (ih h'')

lemma mem_of_mem_dedupeInsert {r x : GitHubRepository}
    {acc : List GitHubRepository} (h : r ∈ dedupeInsert acc x) :
    r ∈ acc ∨ r = x := by
  unfold dedupeInsert at h
  split at h
  · exact Or.inl h
  · rcases List.mem_append.mp h with h | h
    · exact Or.inl h
    · exact Or.inr (by simpa using h)

lemma mem_of_foldl_dedupeInsert {r : GitHubRepository}
    {l acc : List GitHubRepository}
    (h : r ∈ l.foldl dedupeInsert acc) : r ∈ acc ∨ r ∈ l := by
  induction l generalizing acc with
  | nil => exact Or.inl h
  | cons x xs ih =>
      rw [List.foldl_cons] at h
      rcases ih h with h' | h'
      · rcases mem_of_mem_dedupeInsert h' with h'' | h''
        · exact Or.inl h''
        · exact Or.inr (by simp [h''])
      · exact Or.inr (List.mem_cons_of_mem _ h')

lemma mem_of_searchFold {r : GitHubRepository} {limit : ℕ}
    {D : List (List GitHubRepository)} {acc : List GitHubRepository}
    (h : r ∈ D.foldl
      (fun acc results =>
        if limit ≤ acc.length then acc else results.foldl dedupeInsert acc)
      acc) :
    r ∈ acc ∨ ∃ l ∈ D, r ∈ l := by
  induction D generalizing acc with
  | nil => exact Or.inl h
  | cons d ds ih =>
      rcases ih h with h' | h'
      · dsimp only at h'
        by_cases hc : limit ≤ acc.length
        · rw [if_pos hc] at h'
          exact Or.inl h'
        · rw [if_neg hc] at h'
          rcases mem_of_foldl_dedupeInsert h' with h'' | h''
          · exact Or.inl h''
          · exact Or.inr ⟨d, by simp, h''⟩
      · obtain ⟨l, hl, hr⟩ := h'
        exact Or.inr ⟨l, List.mem_cons_of_mem _ hl, hr⟩

/-- C3 amended -- The selection pipeline applies no population-criteria
filter: it deduplicates discovery results by full name (first occurrence
wins), ranks by stars descending and truncates.  Every selected record does
come from the results of some discovery strategy, but records failing the
configured criteria are retained, so end-to-end scenario A selects
`["a/x", "b/y"]`, not `["a/x"]` only. -/
theorem sampleProjects_amended :
    (∀ (D : List (List GitHubRepository)) (n : ℕ) (r : GitHubRepository),
       r ∈ sampleProjects D n → ∃ l ∈ D, r ∈ l) ∧
    sampleProjects scenarioStrategies 10 = [scenarioAX, scenarioBY] := by
  constructor
  · intro D n r h
    have h1 : r ∈ sortByStarsDesc (searchNextJSProjects D n) :=
      List.mem_of_mem_take h
    have h2 : r ∈ searchNextJSProjects D n := mem_of_mem_sortByStarsDesc h1
    have h3 : r ∈ (D.foldl
        (fun acc results =>
          if n ≤ acc.length then acc else results.foldl dedupeInsert acc)
        []) := List.mem_of_mem_take h2
    rcases mem_of_searchFold h3 with h4 | h4
    · simp at h4
    · exact h4
  · decide

lemma dedupeInsert_idem (acc : List GitHubRepository)
    (r : GitHubRepository) :
    dedupeInsert (dedupeInsert acc r) r = dedupeInsert acc r := by
  unfold dedupeInsert
  by_cases h : acc.any (fun q => q.full_name = r.full_name)
  · simp [h]
  · simp [h, List.any_append]

lemma foldl_dedupeInsert_duplicateEach (l acc : List GitHubRepository) :
    (duplicateEach l).foldl dedupeInsert acc = l.foldl dedupeInsert acc := by
  induction l generalizing acc with
  | nil => rfl
  | cons x xs ih =>
      show (duplicateEach xs).foldl dedupeInsert
          (dedupeInsert (dedupeInsert acc x) x) = _
      rw [dedupeInsert_idem, ih]
      rfl

lemma searchFold_duplicateEach (limit : ℕ)
    (D : List (List GitHubRepository)) (acc : List GitHubRepository) :
    (D.map duplicateEach).foldl
      (fun acc results =>
        if limit ≤ acc.length then acc else results.foldl dedupeInsert acc)
      acc =
    D.foldl
      (fun acc results =>
        if limit ≤ acc.length then acc else results.foldl dedupeInsert acc)
      acc := by
  induction D generalizing acc with
  | nil => rfl
  | cons d ds ih =>
      show (ds.map duplicateEach).foldl _
        (if limit ≤ acc.length then acc
         else (duplicateEach d).foldl dedupeInsert acc) = _
      rw [foldl_dedupeInsert_duplicateEach, ih]
      rfl

/-- C4 -- Selection deduplicates candidates by full name with the first
occurrence winning, independently of which discovery strategy produced a
record: running the pipeline on a discovery-results set `D` and on `D` with
every record duplicated yields identical output (deduplication
idempotence). -/
theorem sampleProjects_duplicateEach (D : List (List GitHubRepository))
    (n : ℕ) :
    sampleProjects (D.map duplicateEach) n = sampleProjects D n := by
  unfold sampleProjects searchNextJSProjects
  rw [searchFold_duplicateEach]

lemma summarizeStep_mk (t : ℕ) (cats : String → ℕ) (sev : SeverityCounts)
    (i : ESGuardIssue) :
    summarizeStep ⟨t, cats, sev⟩ i =
      ⟨t,
       fun c => if c = jsOrString i.category "unknown" then cats c + 1
                else cats c,
       bumpSeverity sev (i.severity.getD .info)⟩ := rfl

lemma foldl_summarizeStep_total_irrel (issues : List ESGuardIssue)
    (t t' : ℕ) (cats : String → ℕ) (sev : SeverityCounts) :
    (issues.foldl summarizeStep ⟨t, cats, sev⟩).categories =
      (issues.foldl summarizeStep ⟨t', cats, sev⟩).categories ∧
    (issues.foldl summarizeStep ⟨t, cats, sev⟩).severity =
      (issues.foldl summarizeStep ⟨t', cats, sev⟩).severity := by
  induction issues generalizing cats sev with
  | nil => exact ⟨rfl, rfl⟩
  | cons i l ih =>
      rw [List.foldl_cons, List.foldl_cons, summarizeStep_mk,
        summarizeStep_mk]
      exact ih _ _

/-- C6 -- A violation whose severity field is missing is counted under
severity `"info"` (not `"warning"`), and a violation whose category field is
missing is counted under category `"unknown"`: appending such a violation to
any issue list increments exactly the `info` severity counter and the
`"unknown"` category counter. -/
theorem summarizeIssues_defaults (issues : List ESGuardIssue)
    (v : ESGuardIssue) (hs : v.severity = none) (hc : v.category = none) :
    (summarizeIssues (issues ++ [v])).severity.info =
      (summarizeIssues issues).severity.info + 1 ∧
    (summarizeIssues (issues ++ [v])).severity.warning =
      (summarizeIssues issues).severity.warning ∧
    (summarizeIssues (issues ++ [v])).severity.error =
      (summarizeIssues issues).severity.error ∧
    (summarizeIssues (issues ++ [v])).categories "unknown" =
      (summarizeIssues issues).categories "unknown" + 1 := by
  have happ : summarizeIssues (issues ++ [v]) =
      summarizeStep (issues.foldl summarizeStep
        ⟨(issues ++ [v]).length, fun _ => 0, ⟨0, 0, 0⟩⟩) v := by
    unfold summarizeIssues
    rw [List.foldl_append]
    rfl
  set B := issues.foldl summarizeStep
    ⟨(issues ++ [v]).length, fun _ => 0, ⟨0, 0, 0⟩⟩ with hB
  have hirrel := foldl_summarizeStep_total_irrel issues
    (issues ++ [v]).length issues.length (fun _ => 0) ⟨0, 0, 0⟩
  have hsum : summarizeIssues issues =
      issues.foldl summarizeStep ⟨issues.length, fun _ => 0, ⟨0, 0, 0⟩⟩ := rfl
  have hcats : B.categories = (summarizeIssues issues).categories := by
    rw [hsum, hB]; exact hirrel.1
  have hsev : B.severity = (summarizeIssues issues).severity := by
    rw [hsum, hB]; exact hirrel.2
  have hstep : summarizeStep B v =
      ⟨B.total,
       fun c => if c = jsOrString v.category "unknown" then B.categories c + 1
                else B.categories c,
       bumpSeverity B.severity (v.severity.getD .info)⟩ := rfl
  rw [happ, hstep, hs, hc]
  refine ⟨?_, ?_, ?_, ?_⟩
  · show (bumpSeverity B.severity .info).info = _
    rw [hsev]
    rfl
  · show (bumpSeverity B.severity .info).warning = _
    rw [hsev]
    rfl
  · show (bumpSeverity B.severity .info).error = _
    rw [hsev]
    rfl
  · show (if "unknown" = jsOrString none "unknown"
          then B.categories "unknown" + 1
          else B.categories "unknown") =
      (summarizeIssues issues).categories "unknown" + 1
    rw [if_pos (show "unknown" = jsOrString none "unknown" from rfl), hcats]

/-- Witness for C6: the theorem applied to the singleton list
`[taggedIssue]` and the field-less violation `bareIssue`. -/
theorem summarizeIssues_defaults_witness :
    bareIssue.severity = none ∧
    ((summarizeIssues ([taggedIssue] ++ [bareIssue])).severity.info =
      (summarizeIssues [taggedIssue]).severity.info + 1 ∧
     (summarizeIssues ([taggedIssue] ++ [bareIssue])).severity.warning =
      (summarizeIssues [taggedIssue]).severity.warning ∧
     (summarizeIssues ([taggedIssue] ++ [bareIssue])).severity.error =
      (summarizeIssues [taggedIssue]).severity.error ∧
     (summarizeIssues ([taggedIssue] ++ [bareIssue])).categories "unknown" =
      (summarizeIssues [taggedIssue]).categories "unknown" + 1) :=
  ⟨rfl, summarizeIssues_defaults [taggedIssue] bareIssue rfl rfl⟩

lemma analyzeFilesGo_eq_map
    (analyze : FileToAnalyze → Except String FileAnalysisResult)
    (conc : ℕ) (files : List FileToAnalyze) :
    analyzeFilesGo analyze conc files = files.map (processFile analyze) := by
  suffices h : ∀ (n : ℕ) (l : List FileToAnalyze), l.length ≤ n →
      analyzeFilesGo analyze conc l = l.map (processFile analyze) from
    h files.length files le_rfl
  intro n
  induction n with
  | zero =>
      intro l hl
      obtain rfl : l = [] := List.eq_nil_of_length_eq_zero (Nat.le_zero.mp hl)
      rw [analyzeFilesGo]
      rfl
  | succ n ih =>
      intro l hl
      match l with
      | [] =>
          rw [analyzeFilesGo]
          rfl
      | f :: rest =>
          have hrest : (rest.drop (conc - 1)).length ≤ n := by
            simp only [List.length_drop]
            simp only [List.length_cons] at hl
            omega
          rw [analyzeFilesGo, ih _ hrest, ← List.map_cons, ← List.map_append,
            List.cons_append, List.take_append_drop]

/-- C9 -- For every task list and every concurrency `≥ 1`, the
bounded-concurrency runner returns exactly one result per submitted task
(the result list length equals the task list length), the empty task list
yields an empty result list, and a task whose analysis throws contributes a
failure-typed result (`errorResult`) instead of being dropped or propagated
as a runner-level fault. -/
theorem analyzeFiles_total
    (analyze : FileToAnalyze → Except String FileAnalysisResult)
    (files : List FileToAnalyze) (conc : ℕ) (h : 1 ≤ conc) :
    (analyzeFiles analyze files conc).length = files.length ∧
    analyzeFiles analyze [] conc = [] ∧
    (∀ f ∈ files, ∀ msg, analyze f = .error msg →
      errorResult f msg ∈ analyzeFiles analyze files conc) := by
  refine ⟨?_, ?_, ?_⟩
  · rw [analyzeFiles, analyzeFilesGo_eq_map, List.length_map]
  · rw [analyzeFiles, analyzeFilesGo_eq_map]
    rfl
  · intro f hf msg hmsg
    rw [analyzeFiles, analyzeFilesGo_eq_map]
    have : processFile analyze f = errorResult f msg := by
      rw [processFile, hmsg]
    exact this ▸ List.mem_map_of_mem _ hf

/-- Witness for C9: the theorem applied to three concrete tasks (one of
which throws) at concurrency 2. -/
theorem analyzeFiles_total_witness :
    1 ≤ 2 ∧
    ((analyzeFiles demoAnalyze demoFiles 2).length = demoFiles.length ∧
     analyzeFiles demoAnalyze [] 2 = [] ∧
     (∀ f ∈ demoFiles, ∀ msg, demoAnalyze f = .error msg →
       errorResult f msg ∈ analyzeFiles demoAnalyze demoFiles 2)) :=
  ⟨by decide, analyzeFiles_total demoAnalyze demoFiles 2 (by decide)⟩

/-- C2 -- For every list of per-project analysis results and every list of
hard failures, the population-level summary satisfies
`projectsWithIssues + projectsWithoutIssues = analyzedProjects` and
`totalProjects = analyzedProjects + failedProjects`. -/
theorem generateAnalysisSummary_invariants
    (results : List ProjectAnalysisResult) (errors : List AnalysisError) :
    (generateAnalysisSummary results errors).overview.projectsWithIssues +
      (generateAnalysisSummary results errors).overview.projectsWithoutIssues =
      (generateAnalysisSummary results errors).overview.analyzedProjects ∧
    (generateAnalysisSummary results errors).overview.totalProjects =
      (generateAnalysisSummary results errors).overview.analyzedProjects +
      (generateAnalysisSummary results errors).overview.failedProjects := by
  constructor
  · show (results.filter _).length +
      (results.length - (results.filter _).length) = results.length
    have h := List.length_filter_le (fun r =>
      decide (0 < r.results.errors.length) ||
        decide (0 < r.results.warnings.length)) results
    omega
  · rfl

/-- C7 (code bug) -- `generateAnalysisSummary` divides without a zero
guard: with an empty per-project result list, `totalIssues / results.length`
is the JavaScript expression `0 / 0 = NaN` (modelled as `none`), not `0`;
the same happens to `averageIssuesPerFile` and the prevalence percentage. -/
theorem generateAnalysisSummary_empty_not_zero :
    (generateAnalysisSummary [] []).statistics.averageIssuesPerProject =
      none ∧
    (generateAnalysisSummary [] []).statistics.averageIssuesPerFile = none ∧
    (generateAnalysisSummary [] []).statistics.issuePrevalencePercentage =
      none ∧
    (generateAnalysisSummary [] []).statistics.averageIssuesPerProject ≠
      some 0 := by
  refine ⟨?_, ?_, ?_, ?_⟩ <;> simp [generateAnalysisSummary, jsDivNat]

/-- Counterexample to C8: the manifest fetch failing with a non-not-found
error (here a rate-limit failure) is classified with `isValid = false` —
the same boolean classification as an invalid record — rather than any
indeterminate outcome; only the reason string records the error. -/
theorem validateNextJSProject_failed_counterexample :
    (validateNextJSProject (.failed "API rate limit exceeded")).isValid =
      false ∧
    (validateNextJSProject (.failed "API rate limit exceeded")).reason =
      some "Error validating project: API rate limit exceeded" :=
  ⟨rfl, rfl⟩

/-- C8 amended -- When the manifest fetch fails with an error other than
not-found, `validateNextJSProject` classifies the record as invalid
(`isValid = false`) with reason `Error validating project: <message>`: the
underlying error message is preserved in the reason, but the result type
has no indeterminate state and the record is folded into the invalid
class. -/
theorem validateNextJSProject_failed (msg : String) :
    validateNextJSProject (.failed msg) =
      { isValid := false, nextVersion := none,
        reason := some ("Error validating project: " ++ msg) } :=
  rfl

/-- C10 -- The outputs of `calculateRequiredSampleSize` and
`calculateConfidenceInterval` are independent of the `confidenceLevel`
argument: the source fixes `z = 1.96` regardless of the level passed, so any
two confidence levels with identical remaining arguments yield identical
results. -/
theorem confidenceLevel_independence (s n c₁ c₂ : ℝ) (c₁' c₂' E : ℚ) :
    calculateConfidenceInterval s n c₁ = calculateConfidenceInterval s n c₂ ∧
    calculateRequiredSampleSize c₁' E = calculateRequiredSampleSize c₂' E :=
  ⟨rfl, rfl⟩

end ESResearch
